import Mathlib

/-!
# Verification of the orchestrator transport client

A shallow embedding of `src/orchestrator_client.rs`: the generic
encode-send-decode primitive `make_request`, and the two domain operations
`get_proof_task` (fetch-task) and `submit_proof` (submit-result) built on it.

Modelling conventions:
* Rust strings and byte buffers that travel on the wire are modelled as
  `List Nat` (their UTF-8 byte sequences); error messages on the result side
  are Lean `String`s, matching the Rust `Box<dyn Error>` messages.
* The HTTP transport (`reqwest`) is an oracle `net : SentRequest → HttpOutcome`
  supplied by the environment; the list of `SentRequest`s issued by a call is
  returned alongside the result, so "zero network calls" is expressible.
* The protobuf message types come from the `nexus_orchestrator` module, which
  is not part of the sources; its schemas and the prost wire format are
  modelled from the spec (see the individual doc comments).
-/

/-- Base-128 varint encoding, little-endian 7-bit groups with a continuation
bit, written with an explicit iteration budget so that it is structurally
recursive (the budget 64 covers every value below `128 ^ 64`, far beyond the
64-bit range protobuf permits). -/
def varintEncodeAux : Nat → Nat → List Nat
  | 0, n => [n % 128]
  | fuel + 1, n => if n < 128 then [n] else (n % 128 + 128) :: varintEncodeAux fuel (n / 128)

/-- Varint encoding of a natural number (protobuf base-128 varint). -/
def varintEncode (n : Nat) : List Nat := varintEncodeAux 64 n

/-- Varint decoding: consumes continuation-flagged bytes off the front of the
stream, returning the decoded value and the remaining bytes. -/
def varintDecode : List Nat → Option (Nat × List Nat)
  | [] => none
  | b :: rest =>
    if b < 128 then some (b, rest)
    else
      match varintDecode rest with
      | none => none
      | some (v, rest₂) => some (b - 128 + 128 * v, rest₂)

/-- The unsigned 64-bit value prost puts on the wire for a signed integer
field: the value sign-extended to 64 bits, i.e. reduced modulo `2 ^ 64`. -/
def wireOfInt (t : Int) : Nat := (t % (2 : Int) ^ 64).toNat

/-- Reading a wire varint back as an `int32`: truncate to the low 32 bits and
reinterpret as a two's-complement signed value. -/
def toI32 (v : Nat) : Int :=
  if v % 2 ^ 32 < 2 ^ 31 then ((v % 2 ^ 32 : Nat) : Int)
  else ((v % 2 ^ 32 : Nat) : Int) - 2 ^ 32

/-- Reading a wire varint back as an `int64`: truncate to the low 64 bits and
reinterpret as a two's-complement signed value. -/
def toI64 (v : Nat) : Int :=
  if v % 2 ^ 64 < 2 ^ 63 then ((v % 2 ^ 64 : Nat) : Int)
  else ((v % 2 ^ 64 : Nat) : Int) - 2 ^ 64

/-- A decoded protobuf field payload: either a varint value (wire type 0) or a
length-delimited byte string (wire type 2) — the only wire types the modelled
schemas use. -/
inductive FieldVal where
  | varint (v : Nat)
  | bytes (payload : List Nat)
  deriving DecidableEq, Repr

/-- Encoding of one present field with field number `fn` (all modelled field
numbers are below 16, so the tag is a single-byte varint). -/
def encodeItem : Nat × FieldVal → List Nat
  | (fn, .varint v) => (8 * fn) :: varintEncode v
  | (fn, .bytes p) => (8 * fn + 2) :: (varintEncode p.length ++ p)

/-- Encoding of a sequence of present fields: their encodings concatenated. -/
def encodeFields (items : List (Nat × FieldVal)) : List Nat :=
  (items.map encodeItem).flatten

/-- The generic field-stream decoder shared by every modelled message type:
repeatedly parse a tag varint, dispatch on the wire type, parse the field
payload and hand it to the schema-specific `handler`. The fuel argument makes
the recursion structural; it is always instantiated with more than the number
of encoded fields (each field occupies at least one byte). Malformed input —
a truncated tag, varint, or length-delimited payload, an unsupported wire
type, or a field the handler rejects — yields an error, mirroring a prost
decode failure. -/
def decodeFieldLoop {M : Type} (handler : Nat → FieldVal → M → Except String M) :
    Nat → List Nat → M → Except String M
  | _, [], m => .ok m
  | 0, _ :: _, _ => .error "field budget exhausted"
  | fuel + 1, b :: bs, m =>
    match varintDecode (b :: bs) with
    | none => .error "truncated field tag"
    | some (tag, rest) =>
      if tag % 8 = 0 then
        match varintDecode rest with
        | none => .error "truncated varint field"
        | some (v, rest₂) =>
          match handler (tag / 8) (.varint v) m with
          | .ok m₂ => decodeFieldLoop handler fuel rest₂ m₂
          | .error e => .error e
      else if tag % 8 = 2 then
        match varintDecode rest with
        | none => .error "truncated length prefix"
        | some (len, rest₂) =>
          if len ≤ rest₂.length then
            match handler (tag / 8) (.bytes (rest₂.take len)) m with
            | .ok m₂ => decodeFieldLoop handler fuel (rest₂.drop len) m₂
            | .error e => .error e
          else .error "truncated length-delimited field"
      else .error "unsupported wire type"

/-- Running a schema handler directly over a list of already-decoded fields:
the specification of what `decodeFieldLoop` recovers from an encoded stream. -/
def runHandler {M : Type} (handler : Nat → FieldVal → M → Except String M) :
    List (Nat × FieldVal) → M → Except String M
  | [], m => .ok m
  | (fn, fv) :: items, m =>
    match handler fn fv m with
    | .ok m₂ => runHandler handler items m₂
    | .error e => .error e

/-- Well-formedness of a field to be encoded: single-byte tag, payload within
protobuf range. -/
def itemWF : Nat × FieldVal → Prop
  | (fn, .varint v) => fn < 16 ∧ v < 2 ^ 64
  | (fn, .bytes p) => fn < 16 ∧ p.length < 2 ^ 64

/-- Modelled from the spec: the Task Request of the missing
`nexus_orchestrator` module — "{worker identifier, node type}", the worker
identifier being an opaque string (modelled by its UTF-8 bytes, protobuf
field 1) and the node type the numeric value of a small closed enumeration
(protobuf `int32`, field 2).  As in proto3, fields holding their default
value are not put on the wire. -/
structure GetProofTaskRequest where
  nodeId : List Nat
  nodeType : Int
  deriving DecidableEq, Repr

/-- The proto3 default Task Request: empty string, zero enum value. -/
def GetProofTaskRequest.protoDefault : GetProofTaskRequest := ⟨[], 0⟩

/-- The present fields of a Task Request, in field order, skipping defaults. -/
def GetProofTaskRequest.fields (m : GetProofTaskRequest) : List (Nat × FieldVal) :=
  (if m.nodeId = [] then [] else [(1, .bytes m.nodeId)])
    ++ (if wireOfInt m.nodeType = 0 then [] else [(2, .varint (wireOfInt m.nodeType))])

/-- Wire encoding of a Task Request (`prost::Message::encode_to_vec`). -/
def GetProofTaskRequest.encode (m : GetProofTaskRequest) : List Nat :=
  encodeFields m.fields

/-- Schema handler for decoding a Task Request. -/
def getProofTaskReqHandler :
    Nat → FieldVal → GetProofTaskRequest → Except String GetProofTaskRequest
  | 1, .bytes p, m => .ok { m with nodeId := p }
  | 2, .varint v, m => .ok { m with nodeType := toI32 v }
  | _, _, _ => .error "unexpected field in GetProofTaskRequest"

/-- Wire decoding of a Task Request (`prost::Message::decode`). -/
def GetProofTaskRequest.decode (b : List Nat) : Except String GetProofTaskRequest :=
  decodeFieldLoop getProofTaskReqHandler (b.length + 1) b GetProofTaskRequest.protoDefault

/-- Modelled from the spec: the Task Response of the missing
`nexus_orchestrator` module — "opaque payload returned by the service,
representing one unit of work"; modelled as a single length-delimited opaque
bytes field. -/
structure GetProofTaskResponse where
  payload : List Nat
  deriving DecidableEq, Repr

/-- Schema handler for decoding a Task Response. -/
def getProofTaskRespHandler :
    Nat → FieldVal → GetProofTaskResponse → Except String GetProofTaskResponse
  | 1, .bytes p, m => .ok { m with payload := p }
  | _, _, _ => .error "unexpected field in GetProofTaskResponse"

/-- Wire decoding of a Task Response (`prost::Message::decode`). -/
def GetProofTaskResponse.decode (b : List Nat) : Except String GetProofTaskResponse :=
  decodeFieldLoop getProofTaskRespHandler (b.length + 1) b ⟨[]⟩

/-- The field list contributed by an optional signed-integer field: absent
fields are skipped, present ones are put on the wire even at their default
value, as prost does for explicit-presence proto3 fields. -/
def optVarintField (fn : Nat) : Option Int → List (Nat × FieldVal)
  | none => []
  | some v => [(fn, .varint (wireOfInt v))]

/-- The field list contributed by an optional length-delimited field. -/
def optBytesField (fn : Nat) : Option (List Nat) → List (Nat × FieldVal)
  | none => []
  | some p => [(fn, .bytes p)]

/-- Modelled from the spec: the Telemetry Snapshot of the missing
`nexus_orchestrator` module — "{compute throughput estimate, memory used by
this process, total system memory capacity, a coarse location tag}", all
optional fields.  The throughput estimate is a protobuf `int32` (field 1, the
code casts the measured value with `as i32`), the memory figures are signed
64-bit integer byte counts (fields 2 and 3), and the location tag is a string
(field 4, modelled by its UTF-8 bytes). -/
structure NodeTelemetry where
  flopsPerSec : Option Int
  memoryUsed : Option Int
  memoryCapacity : Option Int
  location : Option (List Nat)
  deriving DecidableEq, Repr

/-- The present fields of a Telemetry Snapshot, in field order. -/
def NodeTelemetry.fields (t : NodeTelemetry) : List (Nat × FieldVal) :=
  optVarintField 1 t.flopsPerSec ++ optVarintField 2 t.memoryUsed
    ++ optVarintField 3 t.memoryCapacity ++ optBytesField 4 t.location

/-- Wire encoding of a Telemetry Snapshot. -/
def NodeTelemetry.encode (t : NodeTelemetry) : List Nat := encodeFields t.fields

/-- Schema handler for decoding a Telemetry Snapshot. -/
def nodeTelemetryHandler : Nat → FieldVal → NodeTelemetry → Except String NodeTelemetry
  | 1, .varint v, t => .ok { t with flopsPerSec := some (toI32 v) }
  | 2, .varint v, t => .ok { t with memoryUsed := some (toI64 v) }
  | 3, .varint v, t => .ok { t with memoryCapacity := some (toI64 v) }
  | 4, .bytes p, t => .ok { t with location := some p }
  | _, _, _ => .error "unexpected field in NodeTelemetry"

/-- Wire decoding of a Telemetry Snapshot. -/
def NodeTelemetry.decode (b : List Nat) : Except String NodeTelemetry :=
  decodeFieldLoop nodeTelemetryHandler (b.length + 1) b ⟨none, none, none, none⟩

/-- A Telemetry Snapshot whose values are representable on the wire: the
throughput estimate is an `int32`, the memory figures are `int64` values and
the location tag is far below the length limit of a nested field. -/
def NodeTelemetry.wf (t : NodeTelemetry) : Prop :=
  (∀ v ∈ t.flopsPerSec, -(2 ^ 31) ≤ v ∧ v < 2 ^ 31)
    ∧ (∀ v ∈ t.memoryUsed, -(2 ^ 63) ≤ v ∧ v < 2 ^ 63)
    ∧ (∀ v ∈ t.memoryCapacity, -(2 ^ 63) ≤ v ∧ v < 2 ^ 63)
    ∧ (∀ p ∈ t.location, p.length < 2 ^ 60)

/-- Modelled from the spec: the Result Submission of the missing
`nexus_orchestrator` module — "{worker identifier, node type, result hash
(string), result bytes (opaque blob), telemetry snapshot}": worker identifier
string (field 1), node type `int32` (field 2), result hash string (field 3),
result bytes (field 4) and the optional nested Telemetry Snapshot message
(field 5).  Strings are modelled by their UTF-8 bytes; as in proto3,
non-optional fields holding their default value are not put on the wire. -/
structure SubmitProofRequest where
  nodeId : List Nat
  nodeType : Int
  proofHash : List Nat
  proof : List Nat
  nodeTelemetry : Option NodeTelemetry
  deriving DecidableEq, Repr

/-- The proto3 default Result Submission. -/
def SubmitProofRequest.protoDefault : SubmitProofRequest := ⟨[], 0, [], [], none⟩

/-- The field list contributed by the optional nested telemetry message: a
present message is put on the wire as a length-delimited field holding its
own encoding. -/
def telemetryField (o : Option NodeTelemetry) : List (Nat × FieldVal) :=
  match o with
  | none => []
  | some t => [(5, .bytes t.encode)]

/-- The present fields of a Result Submission, in field order, skipping
defaults. -/
def SubmitProofRequest.fields (m : SubmitProofRequest) : List (Nat × FieldVal) :=
  (if m.nodeId = [] then [] else [(1, .bytes m.nodeId)])
    ++ (if wireOfInt m.nodeType = 0 then [] else [(2, .varint (wireOfInt m.nodeType))])
    ++ (if m.proofHash = [] then [] else [(3, .bytes m.proofHash)])
    ++ (if m.proof = [] then [] else [(4, .bytes m.proof)])
    ++ telemetryField m.nodeTelemetry

/-- Wire encoding of a Result Submission (`prost::Message::encode_to_vec`). -/
def SubmitProofRequest.encode (m : SubmitProofRequest) : List Nat :=
  encodeFields m.fields

/-- Schema handler for decoding a Result Submission. -/
def submitProofHandler : Nat → FieldVal → SubmitProofRequest → Except String SubmitProofRequest
  | 1, .bytes p, m => .ok { m with nodeId := p }
  | 2, .varint v, m => .ok { m with nodeType := toI32 v }
  | 3, .bytes p, m => .ok { m with proofHash := p }
  | 4, .bytes p, m => .ok { m with proof := p }
  | 5, .bytes p, m =>
    match NodeTelemetry.decode p with
    | .ok t => .ok { m with nodeTelemetry := some t }
    | .error e => .error e
  | _, _, _ => .error "unexpected field in SubmitProofRequest"

/-- Wire decoding of a Result Submission (`prost::Message::decode`). -/
def SubmitProofRequest.decode (b : List Nat) : Except String SubmitProofRequest :=
  decodeFieldLoop submitProofHandler (b.length + 1) b SubmitProofRequest.protoDefault

/-- A Result Submission whose values are representable on the wire. -/
def SubmitProofRequest.wf (m : SubmitProofRequest) : Prop :=
  m.nodeId.length < 2 ^ 64 ∧ (-(2 ^ 31) ≤ m.nodeType ∧ m.nodeType < 2 ^ 31)
    ∧ m.proofHash.length < 2 ^ 64 ∧ m.proof.length < 2 ^ 64
    ∧ ∀ t ∈ m.nodeTelemetry, t.wf

/-- Wire decoding of the unit response shape used on `/tasks/submit`
(`prost::Message` for `()`): every well-formed field of the body is read and
ignored, malformed bytes are a decode error. -/
def decodeEmptyMessage (b : List Nat) : Except String Unit :=
  decodeFieldLoop (fun _ _ _ => .ok ()) (b.length + 1) b ()

/-- The response body read as text (`response.text()`), modelled bytewise:
exact for the ASCII bodies the claims speak about, lossy beyond, as the
original's UTF-8 read is. -/
def responseText (body : List Nat) : String :=
  String.mk (body.map Char.ofNat)

/-- `reqwest::StatusCode::is_success`: any 2xx status. -/
def statusIsSuccess (status : Nat) : Bool :=
  decide (200 ≤ status) && decide (status < 300)

/-- One HTTP request as `make_request` hands it to the transport: full target
address, verb, the fixed content type header and the serialized body. -/
structure SentRequest where
  url : String
  method : String
  contentType : String
  body : List Nat
  deriving DecidableEq, Repr

/-- What the transport does with a sent request: fail to connect (carrying
the low-level diagnostic reqwest would attach to the `send()` error), or
complete with an HTTP status and a response body. -/
inductive HttpOutcome where
  | connectFailure (diagnostic : String)
  | response (status : Nat) (body : List Nat)

/-- The transport client: the reusable connection handle is the oracle
passed to each call, so the state is the resolved base address. -/
structure OrchestratorClient where
  base_url : String

/-- Modelled from the spec: the Node Type of the missing
`nexus_orchestrator` module, "a small closed enumeration identifying the kind
of worker issuing requests"; only the CLI-prover variant is used, its numeric
wire value modelled as 1. -/
inductive NodeType where
  | cliProver
  deriving DecidableEq, Repr

/-- `NodeType::CliProver as i32`. -/
def NodeType.toWire : NodeType → Int
  | .cliProver => 1

/-- Modelled from the spec: the Rust `flops as i32` cast applied to the
throughput estimate of the missing `measure_flops` collaborator.  The spec
calls the estimate "a numeric estimate"; it is modelled as an integer, on
which the float-to-int `as` cast (truncate toward zero, saturating) reduces
to saturation at the `i32` bounds. -/
def f64AsI32 (x : Int) : Int :=
  max (-(2 ^ 31)) (min (2 ^ 31 - 1) x)

/-- The UTF-8 bytes of the constant location tag `"US"`. -/
def usLocationTag : List Nat := [85, 83]

/-- The encode-send-decode primitive (`OrchestratorClient::make_request`),
generic over the request and response message shapes via their codec
functions.  Returns the transport outcome together with the list of requests
actually handed to the transport, so that "no network call issued" is the
second component being `[]`. -/
def make_request {T U : Type} (self : OrchestratorClient) (url : String) (method : String)
    (encode : T → List Nat) (decode : List Nat → Except String U)
    (request_data : T) (net : SentRequest → HttpOutcome) :
    Except String (Option U) × List SentRequest :=
  let request_bytes := encode request_data
  let full_url := self.base_url ++ url
  if method = "POST" ∨ method = "GET" then
    let req : SentRequest := ⟨full_url, method, "application/octet-stream", request_bytes⟩
    let result : Except String (Option U) :=
      match net req with
      | .connectFailure _ => .error "Failed to connect to orchestrator"
      | .response status body =>
        if !statusIsSuccess status then
          .error ("HTTP " ++ toString status ++ ": " ++ responseText body)
        else if body = [] then
          .ok none
        else
          match decode body with
          | .ok u => .ok (some u)
          | .error e => .error ("Protobuf decode error: " ++ e)
    (result, [req])
  else
    (.error "Unsupported HTTP method", [])

/-- The fetch-task operation (`OrchestratorClient::get_proof_task`).  The
worker identifier is the UTF-8 byte sequence of the caller's string. -/
def get_proof_task (self : OrchestratorClient) (node_id : List Nat)
    (net : SentRequest → HttpOutcome) :
    Except String GetProofTaskResponse × List SentRequest :=
  if node_id = [] then
    (.error "Invalid node ID", [])
  else
    let request : GetProofTaskRequest := ⟨node_id, NodeType.toWire .cliProver⟩
    let r := make_request self "/tasks" "POST" GetProofTaskRequest.encode
      GetProofTaskResponse.decode request net
    (match r.1 with
      | .error e => .error e
      | .ok none => .error "Empty response from orchestrator"
      | .ok (some response) => .ok response, r.2)

/-- What a `submit_proof` call did besides its result: the requests handed to
the transport, whether the telemetry collaborators (`get_memory_info`,
`measure_flops`) were invoked, and the Result Submission it constructed, when
it constructed one. -/
structure SubmitEffects where
  sent : List SentRequest
  telemetryGathered : Bool
  builtRequest : Option SubmitProofRequest
  deriving DecidableEq, Repr

/-- The submit-result operation (`OrchestratorClient::submit_proof`).
`memory_info` is the `(program_memory, total_memory)` pair the external
`get_memory_info` collaborator would return and `flops` the estimate from
`measure_flops`; both are consulted only on the path where the code calls
the collaborators, which `SubmitEffects.telemetryGathered` records. -/
def submit_proof (self : OrchestratorClient) (node_id : List Nat) (proof_hash : List Nat)
    (proof : List Nat) (memory_info : Int × Int) (flops : Int)
    (net : SentRequest → HttpOutcome) : Except String Unit × SubmitEffects :=
  if proof = [] then
    (.error "Empty proof submitted", ⟨[], false, none⟩)
  else
    let program_memory := memory_info.1
    let total_memory := memory_info.2
    let request : SubmitProofRequest :=
      { nodeId := node_id
        nodeType := NodeType.toWire .cliProver
        proofHash := proof_hash
        proof := proof
        nodeTelemetry := some
          { flopsPerSec := some (f64AsI32 flops)
            memoryUsed := some program_memory
            memoryCapacity := some total_memory
            location := some usLocationTag } }
    let r := make_request self "/tasks/submit" "POST" SubmitProofRequest.encode
      decodeEmptyMessage request net
    (match r.1 with
      | .error e => .error e
      | .ok _ => .ok (), ⟨r.2, true, some request⟩)

theorem varintDecodeAux_encode (fuel : Nat) :
    ∀ n, n < 128 ^ fuel → ∀ rest, varintDecode (varintEncodeAux fuel n ++ rest) = some (n, rest) := by
  induction fuel with
  | zero =>
    intro n hn rest
    interval_cases n
    simp [varintEncodeAux, varintDecode]
  | succ fuel ih =>
    intro n hn rest
    by_cases h : n < 128
    · simp [varintEncodeAux, varintDecode, h]
    · have hdiv : n / 128 < 128 ^ fuel := by
        have h128 : 0 < (128 : Nat) := by norm_num
        rw [Nat.div_lt_iff_lt_mul h128]
        calc n < 128 ^ (fuel + 1) := hn
        _ = 128 ^ fuel * 128 := by ring
      simp only [varintEncodeAux, if_neg h, List.cons_append, varintDecode]
      rw [ih (n / 128) hdiv rest]
      simp only [if_neg (by omega : ¬ n % 128 + 128 < 128)]
      have : n % 128 + 128 - 128 + 128 * (n / 128) = n := by omega
      rw [this]

/-- The round-trip property of the varint codec for every value in protobuf
range (`2 ^ 64 ≤ 128 ^ 64`, so the budget of `varintEncode` is never hit). -/
theorem varintDecode_encode (n : Nat) (hn : n < 2 ^ 64) (rest : List Nat) :
    varintDecode (varintEncode n ++ rest) = some (n, rest) := by
  have : n < 128 ^ 64 := lt_of_lt_of_le hn (by norm_num)
  exact varintDecodeAux_encode 64 n this rest

theorem varintEncodeAux_length (fuel n : Nat) : (varintEncodeAux fuel n).length ≤ fuel + 1 := by
  induction fuel generalizing n with
  | zero => simp [varintEncodeAux]
  | succ fuel ih =>
    by_cases h : n < 128
    · simp [varintEncodeAux, h]
    · simp only [varintEncodeAux, if_neg h, List.length_cons]
      have := ih (n / 128)
      omega

theorem varintEncode_length (n : Nat) : (varintEncode n).length ≤ 65 :=
  varintEncodeAux_length 64 n

theorem varintEncode_ne_nil (n : Nat) : varintEncode n ≠ [] := by
  unfold varintEncode varintEncodeAux
  by_cases h : n < 128 <;> simp [h]

theorem wireOfInt_lt (t : Int) : wireOfInt t < 2 ^ 64 := by
  unfold wireOfInt
  omega

theorem toI32_wireOfInt (t : Int) (h₁ : -(2 ^ 31) ≤ t) (h₂ : t < 2 ^ 31) :
    toI32 (wireOfInt t) = t := by
  unfold toI32 wireOfInt
  omega

theorem toI64_wireOfInt (t : Int) (h₁ : -(2 ^ 63) ≤ t) (h₂ : t < 2 ^ 63) :
    toI64 (wireOfInt t) = t := by
  unfold toI64 wireOfInt
  omega

theorem wireOfInt_eq_zero (t : Int) (h₁ : -(2 ^ 63) ≤ t) (h₂ : t < 2 ^ 63)
    (h : wireOfInt t = 0) : t = 0 := by
  unfold wireOfInt at h
  omega

theorem decodeFieldLoop_encodeFields {M : Type} (handler : Nat → FieldVal → M → Except String M) :
    ∀ (items : List (Nat × FieldVal)) (fuel : Nat) (m m₂ : M),
      items.length ≤ fuel → (∀ it ∈ items, itemWF it) →
      runHandler handler items m = .ok m₂ →
      decodeFieldLoop handler fuel (encodeFields items) m = .ok m₂ := by
  intro items
  induction items with
  | nil =>
    intro fuel m m₂ _ _ hrun
    simp only [runHandler, Except.ok.injEq] at hrun
    cases fuel <;> simp [decodeFieldLoop, encodeFields, hrun]
  | cons it items ih =>
    intro fuel m m₂ hlen hwf hrun
    obtain ⟨fn, fv⟩ := it
    have hlen₂ : items.length + 1 ≤ fuel := by simpa using hlen
    obtain ⟨k, rfl⟩ : ∃ k, fuel = k + 1 := ⟨fuel - 1, by omega⟩
    have hwf₁ : itemWF (fn, fv) := hwf _ (by simp)
    have hwfrest : ∀ it ∈ items, itemWF it := fun it hit => hwf _ (by simp [hit])
    simp only [runHandler] at hrun
    cases fv with
    | varint v =>
      obtain ⟨hfn, hv⟩ := hwf₁
      cases hh : handler fn (.varint v) m with
      | error e => rw [hh] at hrun; simp at hrun
      | ok m₁ =>
        rw [hh] at hrun
        have henc : encodeFields ((fn, .varint v) :: items)
            = (8 * fn) :: (varintEncode v ++ encodeFields items) := by
          simp [encodeFields, encodeItem]
        rw [henc]
        have htag : 8 * fn < 128 := by omega
        have hmod : 8 * fn % 8 = 0 := by omega
        have hdivt : 8 * fn / 8 = fn := by omega
        simp only [decodeFieldLoop, varintDecode, if_pos htag, hmod, if_pos rfl,
          varintDecode_encode v hv, hdivt, hh]
        exact ih k m₁ m₂ (by omega) hwfrest hrun
    | bytes p =>
      obtain ⟨hfn, hp⟩ := hwf₁
      cases hh : handler fn (.bytes p) m with
      | error e => rw [hh] at hrun; simp at hrun
      | ok m₁ =>
        rw [hh] at hrun
        have henc : encodeFields ((fn, .bytes p) :: items)
            = (8 * fn + 2) :: (varintEncode p.length ++ (p ++ encodeFields items)) := by
          simp [encodeFields, encodeItem]
        rw [henc]
        have htag : 8 * fn + 2 < 128 := by omega
        have hmod0 : ¬ (8 * fn + 2) % 8 = 0 := by omega
        have hmod2 : (8 * fn + 2) % 8 = 2 := by omega
        have hdivt : (8 * fn + 2) / 8 = fn := by omega
        have hle : p.length ≤ (p ++ encodeFields items).length := by simp
        have htake : (p ++ encodeFields items).take p.length = p := List.take_left p _
        have hdrop : (p ++ encodeFields items).drop p.length = encodeFields items :=
          List.drop_left p _
        simp only [decodeFieldLoop, varintDecode, if_pos htag, if_neg hmod0, hmod2,
          varintDecode_encode p.length hp, if_pos hle, htake, hdrop, hdivt, hh]
        exact ih k m₁ m₂ (by omega) hwfrest hrun

theorem encodeFields_length (items : List (Nat × FieldVal)) :
    items.length ≤ (encodeFields items).length := by
  induction items with
  | nil => simp [encodeFields]
  | cons it items ih =>
    obtain ⟨fn, fv⟩ := it
    cases fv <;>
      simp only [encodeFields, List.map_cons, List.flatten_cons, List.length_append,
        encodeItem, List.length_cons] at ih ⊢ <;>
      omega

theorem encodeFields_append (xs ys : List (Nat × FieldVal)) :
    encodeFields (xs ++ ys) = encodeFields xs ++ encodeFields ys := by
  simp [encodeFields]

theorem runHandler_append {M : Type} (handler : Nat → FieldVal → M → Except String M)
    (xs ys : List (Nat × FieldVal)) (m m₁ : M) (hx : runHandler handler xs m = .ok m₁) :
    runHandler handler (xs ++ ys) m = runHandler handler ys m₁ := by
  induction xs generalizing m with
  | nil =>
    simp only [runHandler, Except.ok.injEq] at hx
    subst hx
    simp
  | cons it xs ih =>
    obtain ⟨fn, fv⟩ := it
    simp only [runHandler, List.cons_append] at hx ⊢
    cases hh : handler fn fv m with
    | error e => rw [hh] at hx; simp at hx
    | ok m₂ => rw [hh] at hx; exact ih m₂ hx

theorem ifBytesItems_wf (fn : Nat) (hfn : fn < 16) (p : List Nat) (hp : p.length < 2 ^ 64) :
    ∀ it ∈ (if p = [] then ([] : List (Nat × FieldVal)) else [(fn, .bytes p)]), itemWF it := by
  intro it hit
  by_cases h : p = []
  · simp [h] at hit
  · simp only [if_neg h, List.mem_singleton] at hit
    subst hit
    exact ⟨hfn, hp⟩

theorem ifVarintItems_wf (fn : Nat) (hfn : fn < 16) (v : Nat) (hv : v < 2 ^ 64) :
    ∀ it ∈ (if v = 0 then ([] : List (Nat × FieldVal)) else [(fn, .varint v)]), itemWF it := by
  intro it hit
  by_cases h : v = 0
  · simp [h] at hit
  · simp only [if_neg h, List.mem_singleton] at hit
    subst hit
    exact ⟨hfn, hv⟩

theorem getReq_fields_wf (m : GetProofTaskRequest)
    (h₁ : m.nodeId.length < 2 ^ 64) : ∀ it ∈ m.fields, itemWF it := by
  unfold GetProofTaskRequest.fields
  rw [List.forall_mem_append]
  refine ⟨ifBytesItems_wf 1 (by norm_num) _ h₁, ?_⟩
  exact ifVarintItems_wf 2 (by norm_num) _ (wireOfInt_lt _)

theorem getReq_runHandler_fields (m : GetProofTaskRequest)
    (h₂ : -(2 ^ 31) ≤ m.nodeType) (h₃ : m.nodeType < 2 ^ 31) :
    runHandler getProofTaskReqHandler m.fields GetProofTaskRequest.protoDefault = .ok m := by
  obtain ⟨nid, ty⟩ := m
  unfold GetProofTaskRequest.fields
  simp only at h₂ h₃ ⊢
  have s₁ : runHandler getProofTaskReqHandler (if nid = [] then [] else [(1, .bytes nid)])
      GetProofTaskRequest.protoDefault = .ok ⟨nid, 0⟩ := by
    by_cases ha : nid = [] <;>
      simp [ha, runHandler, getProofTaskReqHandler, GetProofTaskRequest.protoDefault]
  have s₂ : runHandler getProofTaskReqHandler
      (if wireOfInt ty = 0 then [] else [(2, .varint (wireOfInt ty))]) ⟨nid, 0⟩ = .ok ⟨nid, ty⟩ := by
    by_cases hb : wireOfInt ty = 0
    · have hty : ty = 0 := wireOfInt_eq_zero ty (by omega) (by omega) hb
      simp [hb, runHandler, hty]
    · simp [hb, runHandler, getProofTaskReqHandler, toI32_wireOfInt ty h₂ h₃]
  rw [runHandler_append _ _ _ _ _ s₁, s₂]

/-- Round-trip of the Task Request codec: decoding an encoded request
recovers the request, for every request whose node id fits in protobuf range
and whose node type is a genuine `int32` value. -/
theorem getReq_decode_encode (m : GetProofTaskRequest)
    (h₁ : m.nodeId.length < 2 ^ 64) (h₂ : -(2 ^ 31) ≤ m.nodeType) (h₃ : m.nodeType < 2 ^ 31) :
    GetProofTaskRequest.decode m.encode = .ok m := by
  unfold GetProofTaskRequest.decode GetProofTaskRequest.encode
  apply decodeFieldLoop_encodeFields
  · have := encodeFields_length m.fields
    omega
  · exact getReq_fields_wf m h₁
  · exact getReq_runHandler_fields m h₂ h₃

theorem optVarintField_wf (fn : Nat) (hfn : fn < 16) (o : Option Int) :
    ∀ it ∈ optVarintField fn o, itemWF it := by
  intro it hit
  rcases o with _ | v
  · simp [optVarintField] at hit
  · simp only [optVarintField, List.mem_singleton] at hit
    subst hit
    exact ⟨hfn, wireOfInt_lt v⟩

theorem optBytesField_wf (fn : Nat) (hfn : fn < 16) (o : Option (List Nat))
    (ho : ∀ p ∈ o, p.length < 2 ^ 64) : ∀ it ∈ optBytesField fn o, itemWF it := by
  intro it hit
  rcases o with _ | p
  · simp [optBytesField] at hit
  · simp only [optBytesField, List.mem_singleton] at hit
    subst hit
    exact ⟨hfn, ho p (by simp)⟩

theorem telemetry_fields_wf (t : NodeTelemetry) (hwf : t.wf) : ∀ it ∈ t.fields, itemWF it := by
  obtain ⟨-, -, -, h₄⟩ := hwf
  unfold NodeTelemetry.fields
  rw [List.forall_mem_append, List.forall_mem_append, List.forall_mem_append]
  refine ⟨⟨⟨optVarintField_wf 1 (by norm_num) _, optVarintField_wf 2 (by norm_num) _⟩,
    optVarintField_wf 3 (by norm_num) _⟩, ?_⟩
  refine optBytesField_wf 4 (by norm_num) _ ?_
  intro p hp
  have := h₄ p hp
  omega

theorem telemetry_runHandler_fields (t : NodeTelemetry) (hwf : t.wf) :
    runHandler nodeTelemetryHandler t.fields ⟨none, none, none, none⟩ = .ok t := by
  obtain ⟨f, mu, mc, loc⟩ := t
  obtain ⟨h₁, h₂, h₃, h₄⟩ := hwf
  unfold NodeTelemetry.fields
  simp only at h₁ h₂ h₃ h₄ ⊢
  have s₁ : runHandler nodeTelemetryHandler (optVarintField 1 f)
      ⟨none, none, none, none⟩ = .ok ⟨f, none, none, none⟩ := by
    rcases f with _ | v
    · simp [optVarintField, runHandler]
    · obtain ⟨hl, hr⟩ := h₁ v (by simp)
      simp [optVarintField, runHandler, nodeTelemetryHandler, toI32_wireOfInt v hl hr]
  have s₂ : runHandler nodeTelemetryHandler (optVarintField 2 mu)
      ⟨f, none, none, none⟩ = .ok ⟨f, mu, none, none⟩ := by
    rcases mu with _ | v
    · simp [optVarintField, runHandler]
    · obtain ⟨hl, hr⟩ := h₂ v (by simp)
      simp [optVarintField, runHandler, nodeTelemetryHandler, toI64_wireOfInt v hl hr]
  have s₃ : runHandler nodeTelemetryHandler (optVarintField 3 mc)
      ⟨f, mu, none, none⟩ = .ok ⟨f, mu, mc, none⟩ := by
    rcases mc with _ | v
    · simp [optVarintField, runHandler]
    · obtain ⟨hl, hr⟩ := h₃ v (by simp)
      simp [optVarintField, runHandler, nodeTelemetryHandler, toI64_wireOfInt v hl hr]
  have s₄ : runHandler nodeTelemetryHandler (optBytesField 4 loc)
      ⟨f, mu, mc, none⟩ = .ok ⟨f, mu, mc, loc⟩ := by
    rcases loc with _ | p
    · simp [optBytesField, runHandler]
    · simp [optBytesField, runHandler, nodeTelemetryHandler]
  simp only [List.append_assoc]
  rw [runHandler_append _ _ _ _ _ s₁, runHandler_append _ _ _ _ _ s₂,
    runHandler_append _ _ _ _ _ s₃, s₄]

/-- Round-trip of the Telemetry Snapshot codec. -/
theorem telemetry_decode_encode (t : NodeTelemetry) (hwf : t.wf) :
    NodeTelemetry.decode t.encode = .ok t := by
  unfold NodeTelemetry.decode NodeTelemetry.encode
  apply decodeFieldLoop_encodeFields
  · have := encodeFields_length t.fields
    omega
  · exact telemetry_fields_wf t hwf
  · exact telemetry_runHandler_fields t hwf

theorem optVarintField_encode_length (fn : Nat) (o : Option Int) :
    (encodeFields (optVarintField fn o)).length ≤ 66 := by
  rcases o with _ | v
  · simp [optVarintField, encodeFields]
  · have := varintEncode_length (wireOfInt v)
    simp only [optVarintField, encodeFields, List.map_cons, List.map_nil, List.flatten_cons,
      List.flatten_nil, List.append_nil, encodeItem, List.length_cons]
    omega

theorem optBytesField_encode_length (fn : Nat) (o : Option (List Nat)) (bound : Nat)
    (ho : ∀ p ∈ o, p.length ≤ bound) :
    (encodeFields (optBytesField fn o)).length ≤ 66 + bound := by
  rcases o with _ | p
  · simp [optBytesField, encodeFields]
  · have h₁ := varintEncode_length p.length
    have h₂ := ho p (by simp)
    simp only [optBytesField, encodeFields, List.map_cons, List.map_nil, List.flatten_cons,
      List.flatten_nil, List.append_nil, encodeItem, List.length_cons, List.length_append]
    omega

/-- An in-range Telemetry Snapshot encodes to a nested field that fits in
protobuf range. -/
theorem telemetry_encode_length (t : NodeTelemetry) (hwf : t.wf) :
    t.encode.length < 2 ^ 64 := by
  obtain ⟨-, -, -, h₄⟩ := hwf
  unfold NodeTelemetry.encode NodeTelemetry.fields
  rw [encodeFields_append, encodeFields_append, encodeFields_append]
  simp only [List.length_append]
  have l₁ := optVarintField_encode_length 1 t.flopsPerSec
  have l₂ := optVarintField_encode_length 2 t.memoryUsed
  have l₃ := optVarintField_encode_length 3 t.memoryCapacity
  have l₄ := optBytesField_encode_length 4 t.location (2 ^ 60)
    (fun p hp => le_of_lt (h₄ p hp))
  omega

theorem submitReq_fields_wf (m : SubmitProofRequest) (hwf : m.wf) :
    ∀ it ∈ m.fields, itemWF it := by
  obtain ⟨h₁, -, h₃, h₄, h₅⟩ := hwf
  unfold SubmitProofRequest.fields
  rw [List.forall_mem_append, List.forall_mem_append, List.forall_mem_append,
    List.forall_mem_append]
  refine ⟨⟨⟨⟨ifBytesItems_wf 1 (by norm_num) _ h₁,
    ifVarintItems_wf 2 (by norm_num) _ (wireOfInt_lt _)⟩,
    ifBytesItems_wf 3 (by norm_num) _ h₃⟩,
    ifBytesItems_wf 4 (by norm_num) _ h₄⟩, ?_⟩
  intro it hit
  rcases htel : m.nodeTelemetry with _ | t
  · rw [htel] at hit; simp [telemetryField] at hit
  · rw [htel] at hit
    simp only [telemetryField, List.mem_singleton] at hit
    subst hit
    exact ⟨by norm_num, telemetry_encode_length t (h₅ t (by simp [htel]))⟩

theorem submitReq_runHandler_fields (m : SubmitProofRequest) (hwf : m.wf) :
    runHandler submitProofHandler m.fields SubmitProofRequest.protoDefault = .ok m := by
  obtain ⟨nid, ty, ph, pf, tel⟩ := m
  obtain ⟨h₁, ⟨h₂, h₃⟩, h₄, h₅, h₆⟩ := hwf
  unfold SubmitProofRequest.fields
  simp only at h₂ h₃ h₆ ⊢
  have s₁ : runHandler submitProofHandler (if nid = [] then [] else [(1, .bytes nid)])
      SubmitProofRequest.protoDefault = .ok ⟨nid, 0, [], [], none⟩ := by
    by_cases ha : nid = [] <;>
      simp [ha, runHandler, submitProofHandler, SubmitProofRequest.protoDefault]
  have s₂ : runHandler submitProofHandler
      (if wireOfInt ty = 0 then [] else [(2, .varint (wireOfInt ty))])
      ⟨nid, 0, [], [], none⟩ = .ok ⟨nid, ty, [], [], none⟩ := by
    by_cases hb : wireOfInt ty = 0
    · have hty : ty = 0 := wireOfInt_eq_zero ty (by omega) (by omega) hb
      simp [hb, runHandler, hty]
    · simp [hb, runHandler, submitProofHandler, toI32_wireOfInt ty h₂ h₃]
  have s₃ : runHandler submitProofHandler (if ph = [] then [] else [(3, .bytes ph)])
      ⟨nid, ty, [], [], none⟩ = .ok ⟨nid, ty, ph, [], none⟩ := by
    by_cases hc : ph = [] <;> simp [hc, runHandler, submitProofHandler]
  have s₄ : runHandler submitProofHandler (if pf = [] then [] else [(4, .bytes pf)])
      ⟨nid, ty, ph, [], none⟩ = .ok ⟨nid, ty, ph, pf, none⟩ := by
    by_cases hd : pf = [] <;> simp [hd, runHandler, submitProofHandler]
  have s₅ : runHandler submitProofHandler (telemetryField tel)
      ⟨nid, ty, ph, pf, none⟩ = .ok ⟨nid, ty, ph, pf, tel⟩ := by
    rcases tel with _ | t
    · simp [telemetryField, runHandler]
    · have ht : t.wf := h₆ t (by simp)
      simp [telemetryField, runHandler, submitProofHandler, telemetry_decode_encode t ht]
  simp only [List.append_assoc]
  rw [runHandler_append _ _ _ _ _ s₁, runHandler_append _ _ _ _ _ s₂,
    runHandler_append _ _ _ _ _ s₃, runHandler_append _ _ _ _ _ s₄, s₅]

/-- Round-trip of the Result Submission codec: decoding an encoded submission
recovers the submission, for every submission whose values are representable
on the wire. -/
theorem submitReq_decode_encode (m : SubmitProofRequest) (hwf : m.wf) :
    SubmitProofRequest.decode m.encode = .ok m := by
  unfold SubmitProofRequest.decode SubmitProofRequest.encode
  apply decodeFieldLoop_encodeFields
  · have := encodeFields_length m.fields
    omega
  · exact submitReq_fields_wf m hwf
  · exact submitReq_runHandler_fields m hwf

/-- C1: a successful HTTP call with a zero-length body makes the
encode-send-decode primitive yield the explicit absence outcome `.ok none`
(not an error); fetch-task turns that absence into the "Empty response from
orchestrator" failure, while submit-result treats it as overall success. -/
theorem empty_body_absence_and_operation_outcomes {T U : Type} (self : OrchestratorClient)
    (url : String) (encode : T → List Nat) (decode : List Nat → Except String U)
    (request_data : T) (status : Nat) (node_id proof_hash proof : List Nat)
    (memory_info : Int × Int) (flops : Int)
    (hs : statusIsSuccess status = true) (hnode : node_id ≠ []) (hproof : proof ≠ []) :
    (make_request self url "POST" encode decode request_data
        (fun _ => .response status [])).1 = .ok none
    ∧ (get_proof_task self node_id (fun _ => .response status [])).1
        = .error "Empty response from orchestrator"
    ∧ (submit_proof self node_id proof_hash proof memory_info flops
        (fun _ => .response status [])).1 = .ok () := by
  refine ⟨?_, ?_, ?_⟩
  · simp [make_request, hs]
  · simp [get_proof_task, hnode, make_request, hs]
  · simp [submit_proof, hproof, make_request, hs]

/-- Witness for C1 at a concrete empty-body 200 response. -/
theorem empty_body_absence_and_operation_outcomes_witness :
    statusIsSuccess 200 = true ∧ ([110] : List Nat) ≠ [] ∧ ([1] : List Nat) ≠ []
    ∧ ((make_request ⟨"http://x"⟩ "/tasks" "POST" GetProofTaskRequest.encode
          GetProofTaskResponse.decode (⟨[110], 1⟩ : GetProofTaskRequest)
          (fun _ => .response 200 [])).1 = .ok none
      ∧ (get_proof_task ⟨"http://x"⟩ [110] (fun _ => .response 200 [])).1
          = .error "Empty response from orchestrator"
      ∧ (submit_proof ⟨"http://x"⟩ [110] [104] [1] (7, 9) 5
          (fun _ => .response 200 [])).1 = .ok ()) :=
  ⟨rfl, by simp, by simp,
    empty_body_absence_and_operation_outcomes ⟨"http://x"⟩ "/tasks"
      GetProofTaskRequest.encode GetProofTaskResponse.decode ⟨[110], 1⟩ 200
      [110] [104] [1] (7, 9) 5 rfl (by simp) (by simp)⟩

/-- C2: for every empty worker identifier, fetch-task fails immediately with
the "Invalid node ID" validation failure and hands no request to the
transport, whatever the transport would have answered. -/
theorem empty_node_id_fetch_validation (self : OrchestratorClient)
    (net : SentRequest → HttpOutcome) :
    get_proof_task self [] net = (.error "Invalid node ID", []) := rfl

/-- C3: for every empty result byte sequence, submit-result fails immediately
with the "Empty proof submitted" validation failure, hands no request to the
transport, does not invoke the telemetry collaborators and constructs no
submission. -/
theorem empty_proof_submit_validation (self : OrchestratorClient) (node_id proof_hash : List Nat)
    (memory_info : Int × Int) (flops : Int) (net : SentRequest → HttpOutcome) :
    submit_proof self node_id proof_hash [] memory_info flops net
      = (.error "Empty proof submitted", ⟨[], false, none⟩) := rfl

/-- Counterexample to C4 as stated: submit-result with an empty worker
identifier and a non-empty proof does not fail validation — it issues its
network call and returns success. -/
theorem submit_accepts_empty_worker_id :
    (submit_proof ⟨"http://x"⟩ [] [104] [1] (0, 0) 0
        (fun _ => .response 200 [])).1 = .ok ()
    ∧ (submit_proof ⟨"http://x"⟩ [] [104] [1] (0, 0) 0
        (fun _ => .response 200 [])).2.sent.length = 1 :=
  ⟨rfl, rfl⟩

/-- C4 (amended): only fetch-task validates the worker identifier — an empty
identifier makes it fail with the validation failure before any I/O — while
submit-result does not examine the worker identifier at all: with a
non-empty proof it hands its request to the transport even when the
identifier is empty. -/
theorem worker_id_validated_in_fetch_only (self : OrchestratorClient)
    (net : SentRequest → HttpOutcome) (proof_hash proof : List Nat)
    (memory_info : Int × Int) (flops : Int) (hproof : proof ≠ []) :
    get_proof_task self [] net = (.error "Invalid node ID", [])
    ∧ (submit_proof self [] proof_hash proof memory_info flops net).2.sent.length = 1 := by
  refine ⟨rfl, ?_⟩
  simp [submit_proof, hproof, make_request]

/-- Witness for the amended C4 at a concrete non-empty proof. -/
theorem worker_id_validated_in_fetch_only_witness :
    ([1] : List Nat) ≠ []
    ∧ (get_proof_task ⟨"http://x"⟩ [] (fun _ => .response 200 [])
          = (.error "Invalid node ID", [])
      ∧ (submit_proof ⟨"http://x"⟩ [] [104] [1] (0, 0) 0
          (fun _ => .response 200 [])).2.sent.length = 1) :=
  ⟨by simp, worker_id_validated_in_fetch_only ⟨"http://x"⟩ (fun _ => .response 200 [])
    [104] [1] (0, 0) 0 (by simp)⟩

/-- C5: for every completed call whose status is not a success code, the
primitive fails with the message carrying the exact numeric status and the
exact body text, for every decoder — the body is never decoded as the typed
response. -/
theorem non_success_status_exact_failure {T U : Type} (self : OrchestratorClient)
    (url method : String) (encode : T → List Nat) (decode : List Nat → Except String U)
    (request_data : T) (status : Nat) (body : List Nat)
    (hm : method = "POST" ∨ method = "GET") (hs : statusIsSuccess status = false) :
    (make_request self url method encode decode request_data
        (fun _ => .response status body)).1
      = .error ("HTTP " ++ toString status ++ ": " ++ responseText body) := by
  rcases hm with rfl | rfl <;> simp [make_request, hs]

/-- Witness for C5 at status 503 with body "overloaded". -/
theorem non_success_status_exact_failure_witness :
    statusIsSuccess 503 = false
    ∧ (make_request ⟨"http://x"⟩ "/tasks" "POST" GetProofTaskRequest.encode
        GetProofTaskResponse.decode (⟨[110], 1⟩ : GetProofTaskRequest)
        (fun _ => .response 503 [111, 118, 101, 114, 108, 111, 97, 100, 101, 100])).1
      = .error ("HTTP " ++ toString 503 ++ ": "
          ++ responseText [111, 118, 101, 114, 108, 111, 97, 100, 101, 100]) :=
  ⟨rfl, non_success_status_exact_failure ⟨"http://x"⟩ "/tasks" "POST"
    GetProofTaskRequest.encode GetProofTaskResponse.decode ⟨[110], 1⟩ 503
    [111, 118, 101, 114, 108, 111, 97, 100, 101, 100] (Or.inl rfl) rfl⟩

/-- C6: for every method token other than POST and GET, the primitive fails
immediately with the unsupported-method failure and hands no request to the
transport. -/
theorem unsupported_method_no_io {T U : Type} (self : OrchestratorClient) (url method : String)
    (encode : T → List Nat) (decode : List Nat → Except String U) (request_data : T)
    (net : SentRequest → HttpOutcome) (h₁ : method ≠ "POST") (h₂ : method ≠ "GET") :
    make_request self url method encode decode request_data net
      = (.error "Unsupported HTTP method", []) := by
  simp [make_request, h₁, h₂]

/-- Witness for C6 at the method token "PUT". -/
theorem unsupported_method_no_io_witness :
    ("PUT" : String) ≠ "POST" ∧ ("PUT" : String) ≠ "GET"
    ∧ make_request ⟨"http://x"⟩ "/tasks" "PUT" GetProofTaskRequest.encode
        GetProofTaskResponse.decode (⟨[110], 1⟩ : GetProofTaskRequest)
        (fun _ => .response 200 [])
      = (.error "Unsupported HTTP method", []) :=
  ⟨by simp, by simp, unsupported_method_no_io ⟨"http://x"⟩ "/tasks" "PUT"
    GetProofTaskRequest.encode GetProofTaskResponse.decode ⟨[110], 1⟩
    (fun _ => .response 200 []) (by simp) (by simp)⟩

/-- C7: for every connection failure, the primitive reports the fixed message
"Failed to connect to orchestrator", whatever diagnostic the transport
attached — the low-level error text never reaches the caller. -/
theorem connect_failure_fixed_message {T U : Type} (self : OrchestratorClient)
    (url method : String) (encode : T → List Nat) (decode : List Nat → Except String U)
    (request_data : T) (diagnostic : String) (hm : method = "POST" ∨ method = "GET") :
    (make_request self url method encode decode request_data
        (fun _ => .connectFailure diagnostic)).1
      = .error "Failed to connect to orchestrator" := by
  rcases hm with rfl | rfl <;> rfl

/-- Witness for C7 at a concrete transport diagnostic. -/
theorem connect_failure_fixed_message_witness :
    (make_request ⟨"http://x"⟩ "/tasks" "POST" GetProofTaskRequest.encode
        GetProofTaskResponse.decode (⟨[110], 1⟩ : GetProofTaskRequest)
        (fun _ => .connectFailure "tcp connect error: connection refused")).1
      = .error "Failed to connect to orchestrator" :=
  connect_failure_fixed_message ⟨"http://x"⟩ "/tasks" "POST" GetProofTaskRequest.encode
    GetProofTaskResponse.decode ⟨[110], 1⟩ "tcp connect error: connection refused" (Or.inl rfl)

/-- C8: for every successful call whose non-empty body fails to decode as the
expected schema, the primitive returns the decode failure carrying the
underlying diagnostic as an error value (the model is a total function, so
no input can make it crash). -/
theorem malformed_body_decode_failure {T U : Type} (self : OrchestratorClient)
    (url method : String) (encode : T → List Nat) (decode : List Nat → Except String U)
    (request_data : T) (status : Nat) (body : List Nat) (e : String)
    (hm : method = "POST" ∨ method = "GET") (hs : statusIsSuccess status = true)
    (hbody : body ≠ []) (hdec : decode body = .error e) :
    (make_request self url method encode decode request_data
        (fun _ => .response status body)).1
      = .error ("Protobuf decode error: " ++ e) := by
  rcases hm with rfl | rfl <;> simp [make_request, hs, hbody, hdec]

/-- Witness for C8 at a concrete truncated body: field 1 announces five
payload bytes and provides none. -/
theorem malformed_body_decode_failure_witness :
    statusIsSuccess 200 = true ∧ ([10, 5] : List Nat) ≠ []
    ∧ GetProofTaskResponse.decode [10, 5] = .error "truncated length-delimited field"
    ∧ (make_request ⟨"http://x"⟩ "/tasks" "POST" GetProofTaskRequest.encode
        GetProofTaskResponse.decode (⟨[110], 1⟩ : GetProofTaskRequest)
        (fun _ => .response 200 [10, 5])).1
      = .error ("Protobuf decode error: " ++ "truncated length-delimited field") :=
  ⟨rfl, by simp, rfl, malformed_body_decode_failure ⟨"http://x"⟩ "/tasks" "POST"
    GetProofTaskRequest.encode GetProofTaskResponse.decode ⟨[110], 1⟩ 200 [10, 5]
    "truncated length-delimited field" (Or.inl rfl) rfl (by simp) rfl⟩

/-- C9: the wire codec is lossless for both defined request schemas —
decoding an encoded Task Request or Result Submission reproduces a value
equal to the original, for every message whose values are representable on
the wire. -/
theorem request_codec_roundtrip :
    (∀ m : GetProofTaskRequest, m.nodeId.length < 2 ^ 64 →
        -(2 ^ 31) ≤ m.nodeType → m.nodeType < 2 ^ 31 →
        GetProofTaskRequest.decode m.encode = .ok m)
    ∧ ∀ m : SubmitProofRequest, m.wf →
        SubmitProofRequest.decode m.encode = .ok m :=
  ⟨getReq_decode_encode, submitReq_decode_encode⟩

/-- Witness for C9 at concrete messages of both schemas. -/
theorem request_codec_roundtrip_witness :
    GetProofTaskRequest.decode (GetProofTaskRequest.encode ⟨[110, 49], 1⟩)
        = .ok ⟨[110, 49], 1⟩
    ∧ SubmitProofRequest.decode (SubmitProofRequest.encode
          ⟨[110], 1, [104], [1, 2], some ⟨some 7, some 5, some 9, some [85, 83]⟩⟩)
        = .ok ⟨[110], 1, [104], [1, 2], some ⟨some 7, some 5, some 9, some [85, 83]⟩⟩ :=
  ⟨request_codec_roundtrip.1 ⟨[110, 49], 1⟩ (by norm_num) (by norm_num) (by norm_num),
    request_codec_roundtrip.2 ⟨[110], 1, [104], [1, 2], some ⟨some 7, some 5, some 9, some [85, 83]⟩⟩
      ⟨by norm_num, ⟨by norm_num, by norm_num⟩, by norm_num, by norm_num, by
        intro t ht
        simp only [Option.mem_def, Option.some.injEq] at ht
        subst ht
        refine ⟨?_, ?_, ?_, ?_⟩ <;> intro v hv <;>
          simp only [Option.mem_def, Option.some.injEq] at hv <;> subst hv <;> norm_num⟩⟩

/-- C10: every Result Submission constructed by submit-result carries a
present telemetry snapshot whose four fields are all populated: the
throughput estimate after the saturating 32-bit cast, the two measured
memory figures, and the constant location tag "US". -/
theorem submit_telemetry_fully_populated (self : OrchestratorClient)
    (node_id proof_hash proof : List Nat) (memory_info : Int × Int) (flops : Int)
    (net : SentRequest → HttpOutcome) (hproof : proof ≠ []) :
    ∃ r : SubmitProofRequest,
      (submit_proof self node_id proof_hash proof memory_info flops net).2.builtRequest
          = some r
        ∧ r.nodeTelemetry = some
            { flopsPerSec := some (f64AsI32 flops)
              memoryUsed := some memory_info.1
              memoryCapacity := some memory_info.2
              location := some usLocationTag } := by
  unfold submit_proof
  rw [if_neg hproof]
  exact ⟨_, rfl, rfl⟩

/-- Witness for C10 at a concrete submission. -/
theorem submit_telemetry_fully_populated_witness :
    ([1, 2] : List Nat) ≠ []
    ∧ ∃ r : SubmitProofRequest,
        (submit_proof ⟨"http://x"⟩ [110] [104] [1, 2] (7, 9) 5000000
            (fun _ => .response 200 [])).2.builtRequest = some r
          ∧ r.nodeTelemetry = some
              { flopsPerSec := some (f64AsI32 5000000)
                memoryUsed := some (7, 9).1
                memoryCapacity := some (7, 9).2
                location := some usLocationTag } :=
  ⟨by simp, submit_telemetry_fully_populated ⟨"http://x"⟩ [110] [104] [1, 2] (7, 9) 5000000
    (fun _ => .response 200 []) (by simp)⟩
